import Mathlib

/-!
The `mailform_pdf` resource of terraform-provider-mailform.

A shallow embedding of `internal/provider/resource_pdf.go`: the three lifecycle
functions `resourcePDFCreate`, `resourcePDFRead` and `resourcePDFDelete`, the
standard-library calls they make (`crypto/sha1`, `encoding/hex`, `os`,
`io/ioutil`) and the `gofpdf` document they drive.

* Bytes are `UInt8`, SHA-1 words are `Nat` reduced modulo `2 ^ 32`.
* The filesystem is explicit state: every call takes it and hands it back.
* The gofpdf library is a parameter (`Gofpdf`); the document records the calls
  made on it, with lengths as exact rationals in place of `float64`.
-/

namespace Mailform

/-! ## crypto/sha1 and encoding/hex -/

/-- Go `[]byte`. -/
abbrev Bytes := List UInt8

namespace Sha1

/-- 32-bit left rotation (`bits.RotateLeft32`). -/
def rotl (n x : Nat) : Nat :=
  ((x <<< n) ||| (x >>> (32 - n))) % 2 ^ 32

/-- The five 32-bit chaining words of SHA-1. -/
structure Digest where
  h0 : Nat
  h1 : Nat
  h2 : Nat
  h3 : Nat
  h4 : Nat
deriving DecidableEq

/-- Initial chaining value (`init0` .. `init4` of `crypto/sha1`). -/
def init : Digest :=
  ⟨0x67452301, 0xEFCDAB89, 0x98BADCFE, 0x10325476, 0xC3D2E1F0⟩

/-- Big-endian bytes of the low `8 * k` bits of `x`. -/
def beBytes : Nat → Nat → List Nat
  | 0, _ => []
  | k + 1, x => (x >>> (8 * k)) % 256 :: beBytes k x

/-- Message padding: `0x80`, zero bytes up to 56 modulo 64, then the bit length
as a 64-bit big-endian integer. -/
def pad (msg : List Nat) : List Nat :=
  msg ++ 0x80 :: List.replicate ((119 - msg.length % 64) % 64) 0
    ++ beBytes 8 ((8 * msg.length) % 2 ^ 64)

/-- Big-endian 32-bit words of a byte string. -/
def toWords : List Nat → List Nat
  | b0 :: b1 :: b2 :: b3 :: rest =>
      (b0 <<< 24 ||| b1 <<< 16 ||| b2 <<< 8 ||| b3) :: toWords rest
  | _ => []

/-- The first `n` blocks of `k` items each. -/
def chunks (k : Nat) : Nat → List Nat → List (List Nat)
  | 0, _ => []
  | n + 1, l => l.take k :: chunks k n (l.drop k)

/-- Message schedule: 16 block words extended to 80. -/
def schedule (block : List Nat) : List Nat :=
  (List.range 64).foldl
    (fun w _ =>
      let t := w.length
      w ++ [rotl 1 (w.getD (t - 3) 0 ^^^ w.getD (t - 8) 0 ^^^ w.getD (t - 14) 0
        ^^^ w.getD (t - 16) 0)])
    block

/-- Round function of round `t`. -/
def f (t b c d : Nat) : Nat :=
  if t < 20 then (b &&& c) ||| ((b ^^^ 0xFFFFFFFF) &&& d)
  else if t < 40 then b ^^^ c ^^^ d
  else if t < 60 then (b &&& c) ||| (b &&& d) ||| (c &&& d)
  else b ^^^ c ^^^ d

/-- Round constant of round `t`. -/
def K (t : Nat) : Nat :=
  if t < 20 then 0x5A827999
  else if t < 40 then 0x6ED9EBA1
  else if t < 60 then 0x8F1BBCDC
  else 0xCA62C1D6

/-- One of the 80 rounds on the working variables `a b c d e`. -/
def round (w : List Nat) (s : Digest) (t : Nat) : Digest :=
  ⟨(rotl 5 s.h0 + f t s.h1 s.h2 s.h3 + s.h4 + w.getD t 0 + K t) % 2 ^ 32,
   s.h0, rotl 30 s.h1, s.h2, s.h3⟩

/-- Compression of one 16-word block into the chaining value. -/
def block (h : Digest) (words : List Nat) : Digest :=
  let s := (List.range 80).foldl (round (schedule words)) h
  ⟨(h.h0 + s.h0) % 2 ^ 32, (h.h1 + s.h1) % 2 ^ 32, (h.h2 + s.h2) % 2 ^ 32,
   (h.h3 + s.h3) % 2 ^ 32, (h.h4 + s.h4) % 2 ^ 32⟩

/-- Chaining value after the whole padded message. -/
def digest (data : Bytes) : Digest :=
  let p := pad (data.map UInt8.toNat)
  (chunks 16 (p.length / 64) (toWords p)).foldl block init

/-- Big-endian bytes of one chaining word. -/
def wordBytes (x : Nat) : Bytes :=
  [UInt8.ofNat (x >>> 24), UInt8.ofNat (x >>> 16), UInt8.ofNat (x >>> 8), UInt8.ofNat x]

/-- Checksum of `data`, `sha1.Sum`: the 20 bytes of Go's `[Size]byte`. -/
def Sum (data : Bytes) : Bytes :=
  let h := digest data
  wordBytes h.h0 ++ wordBytes h.h1 ++ wordBytes h.h2 ++ wordBytes h.h3 ++ wordBytes h.h4

end Sha1

namespace Hex

/-- Digit alphabet of `encoding/hex`. -/
def hextable : String := "0123456789abcdef"

/-- Digit `hextable[i]`. -/
def digit (i : Nat) : Char :=
  hextable.toList.getD i '0'

/-- Two digits per byte, high nibble first (`hex.Encode`). -/
def encode : Bytes → List Char
  | [] => []
  | v :: rest => digit (v.toNat >>> 4) :: digit (v.toNat &&& 0x0f) :: encode rest

/-- Hexadecimal encoding of `src`, `hex.EncodeToString`. -/
def EncodeToString (src : Bytes) : String :=
  String.mk (encode src)

end Hex

/-! ## os and io/ioutil -/

/-- File name as Go passes it to the operating system. -/
abbrev Path := String

/-- System error numbers the calls below report. -/
inductive Errno
  | ENOENT
  | EACCES
  | ENOTDIR
  | EFBIG
deriving DecidableEq

/-- Text of an error number (`syscall.Errno.Error`). -/
def Errno.Error : Errno → String
  | .ENOENT => "no such file or directory"
  | .EACCES => "permission denied"
  | .ENOTDIR => "not a directory"
  | .EFBIG => "file too large"

/-- Go `error` values met by the resource: an `*fs.PathError` of a system call,
or the error a gofpdf document has accumulated. -/
inductive GoError
  | pathError (op : String) (path : Path) (errno : Errno)
  | document (msg : String)
deriving DecidableEq

/-- Message of an error, `err.Error()`. -/
def GoError.Error : GoError → String
  | .pathError op path errno => op ++ " " ++ path ++ ": " ++ errno.Error
  | .document msg => msg

/-- What the operating system holds at one path.

* `missing canCreate`: no directory entry; `canCreate` tells whether a file may
  be created there (the directory exists and is writable).
* `file data canRead canWrite canRemove`: a file with its bytes, and whether it
  may be opened for reading, opened for writing, and unlinked.
* `unreachable`: the path cannot be examined (a directory on the way to it
  may not be searched); every call on it fails with EACCES.
* `notDir`: a component of the path is a regular file, so no file exists at
  the path and none can be created; every call on it fails with ENOTDIR. -/
inductive Node
  | missing (canCreate : Bool)
  | file (data : Bytes) (canRead canWrite canRemove : Bool)
  | unreachable
  | notDir
deriving DecidableEq

/-- No file exists at a path holding this node: there is no directory entry, or
a component of the path is a regular file. -/
def Node.noFile : Node → Bool
  | .missing _ => true
  | .notDir => true
  | _ => false

/-- Filesystem state as the process sees it: the node at every path, the
largest size a write may give a file (`none`: unlimited), and whether the
umask leaves a newly created file readable. -/
structure FS where
  node : Path → Node
  sizeLimit : Option Nat
  newFileReadable : Bool

/-- Replace the node at `p`. -/
def FS.set (fs : FS) (p : Path) (n : Node) : FS :=
  { fs with node := fun q => if q = p then n else fs.node q }

/-- Modelled from the spec: `os.IsNotExist` of the Go standard library (not
under src/), which "Missing-file-on-read" rests on: true for an ENOENT error,
false for `nil` and for every other error. -/
def IsNotExist : Option GoError → Bool
  | some (.pathError _ _ .ENOENT) => true
  | _ => false

/-- Modelled from the spec: `os.Stat` of the Go standard library (not under
src/). The `FileInfo` is left out, the caller discards it. The filesystem is
returned unchanged. -/
def Stat (fs : FS) (name : Path) : FS × Option GoError :=
  match fs.node name with
  | .missing _ => (fs, some (.pathError "stat" name .ENOENT))
  | .file _ _ _ _ => (fs, none)
  | .unreachable => (fs, some (.pathError "stat" name .EACCES))
  | .notDir => (fs, some (.pathError "stat" name .ENOTDIR))

/-- Modelled from the spec: `ioutil.ReadFile` of the Go standard library (not
under src/): the full byte content of the file, or the error of opening it.
The filesystem is returned unchanged. -/
def ReadFile (fs : FS) (filename : Path) : FS × Except GoError Bytes :=
  match fs.node filename with
  | .missing _ => (fs, .error (.pathError "open" filename .ENOENT))
  | .file data true _ _ => (fs, .ok data)
  | .file _ false _ _ => (fs, .error (.pathError "open" filename .EACCES))
  | .unreachable => (fs, .error (.pathError "open" filename .EACCES))
  | .notDir => (fs, .error (.pathError "open" filename .ENOTDIR))

/-- Modelled from the spec: `os.Remove` of the Go standard library (not under
src/): unlinks the file at `name` when that is permitted, and reports an error
otherwise, also when nothing is there. -/
def Remove (fs : FS) (name : Path) : FS × Option GoError :=
  match fs.node name with
  | .missing _ => (fs, some (.pathError "remove" name .ENOENT))
  | .file _ _ _ true => (fs.set name (.missing true), none)
  | .file _ _ _ false => (fs, some (.pathError "remove" name .EACCES))
  | .unreachable => (fs, some (.pathError "remove" name .EACCES))
  | .notDir => (fs, some (.pathError "remove" name .ENOTDIR))

/-- Modelled from the spec: `os.Create` of the Go standard library (not under
src/), an open for reading and writing with creation and truncation: creates
the file, readable as far as the umask allows, or truncates the one that is
there when it may be both read and written, and fails without touching the
filesystem otherwise. -/
def Create (fs : FS) (name : Path) : FS × Option GoError :=
  match fs.node name with
  | .missing true => (fs.set name (.file [] fs.newFileReadable true true), none)
  | .missing false => (fs, some (.pathError "open" name .EACCES))
  | .file _ true true canRemove => (fs.set name (.file [] true true canRemove), none)
  | .file _ _ _ _ => (fs, some (.pathError "open" name .EACCES))
  | .unreachable => (fs, some (.pathError "open" name .EACCES))
  | .notDir => (fs, some (.pathError "open" name .ENOTDIR))

/-- Modelled from the spec: `(*os.File).Write` of the Go standard library (not
under src/) on the file opened at `name`: appends `buf`; past the size limit
only the bytes that fit are written and EFBIG is reported. -/
def Write (fs : FS) (name : Path) (buf : Bytes) : FS × Option GoError :=
  match fs.node name with
  | .file data canRead canWrite canRemove =>
      match fs.sizeLimit with
      | none => (fs.set name (.file (data ++ buf) canRead canWrite canRemove), none)
      | some limit =>
          if data.length + buf.length ≤ limit then
            (fs.set name (.file (data ++ buf) canRead canWrite canRemove), none)
          else
            (fs.set name (.file (data ++ buf.take (limit - data.length)) canRead canWrite canRemove),
              some (.pathError "write" name .EFBIG))
  | _ => (fs, some (.pathError "write" name .ENOENT))

/-! ## gofpdf -/

/-- Drawing calls the resource makes on a document, with their arguments. -/
inductive Call
  | AddPage
  | SetTitle (titleStr : String) (isUTF8 : Bool)
  | SetFont (familyStr styleStr : String) (size : ℚ)
  | SetX (x : ℚ)
  | CellFormat (w h : ℚ) (txtStr borderStr : String) (ln : Int) (alignStr : String)
      (fill : Bool) (link : Int) (linkStr : String)
  | Ln (h : ℚ)
  | SetAutoPageBreak (auto : Bool) (margin : ℚ)
  | Write (h : ℚ) (txtStr : String)
deriving DecidableEq

/-- A gofpdf document: the arguments of `gofpdf.New` and the calls made on it
since, oldest first. Lengths are exact rationals in place of `float64`. -/
structure Fpdf where
  orientationStr : String
  unitStr : String
  sizeStr : String
  fontDirStr : String
  calls : List Call
deriving DecidableEq

/-- `gofpdf.OrientationPortrait`. -/
def OrientationPortrait : String := "portrait"

/-- `gofpdf.PageSizeLetter`. -/
def PageSizeLetter : String := "Letter"

/-- `gofpdf.New`. -/
def New (orientationStr unitStr sizeStr fontDirStr : String) : Fpdf :=
  ⟨orientationStr, unitStr, sizeStr, fontDirStr, []⟩

/-- Record one call on the document. -/
def Fpdf.call (f : Fpdf) (c : Call) : Fpdf :=
  { f with calls := f.calls ++ [c] }

/-- Modelled from the spec: the PDF-generation capability of §6, the gofpdf
library (a dependency, not under src/), as far as the resource needs it.

* `GetStringWidth f s`: width of `s` in the current font of `f`, in the unit
  of `f`.
* `err f`: the error the document has accumulated over its calls (`f.err`).
* `close f`: the serialised document (`f.Close()` then the buffer), or the
  error closing it sets. -/
structure Gofpdf where
  GetStringWidth : Fpdf → String → ℚ
  err : Fpdf → Option GoError
  close : Fpdf → Except GoError Bytes

/-- Modelled from the spec: `(*Fpdf).OutputFileAndClose` of gofpdf (not under
src/), "serialize to a named file": nothing is written when the document
already holds an error; otherwise the file is created, the document closed and
its buffer written, and the first error met is returned. -/
def OutputFileAndClose (lib : Gofpdf) (f : Fpdf) (fs : FS) (fileStr : Path) :
    FS × Option GoError :=
  match lib.err f with
  | some e => (fs, some e)
  | none =>
      match Create fs fileStr with
      | (fs1, some e) => (fs1, some e)
      | (fs1, none) =>
          match lib.close f with
          | .error e => (fs1, some e)
          | .ok buf => Write fs1 fileStr buf

/-- Lower-case form of a string, `strings.ToLower` on ASCII. -/
def toLower (s : String) : String :=
  String.mk (s.toList.map Char.toLower)

/-- Modelled from the spec: page widths of gofpdf (not under src/) in points,
by size name; letter is 612 pt, A4 is 595.28 pt. -/
def stdPageWidthPt (sizeStr : String) : ℚ :=
  if toLower sizeStr = "letter" then 612
  else if toLower sizeStr = "a4" ∨ sizeStr = "" then 59528 / 100
  else 0

/-- Modelled from the spec: points per unit of gofpdf (not under src/); a
millimetre is 72/25.4 pt. -/
def unitScale (unitStr : String) : ℚ :=
  if unitStr = "mm" then 72 / (254 / 10) else 1

/-- Width of the portrait page of a document in its unit (`f.w`): 215.9 mm for
letter size. -/
def Fpdf.w (f : Fpdf) : ℚ :=
  stdPageWidthPt f.sizeStr / unitScale f.unitStr

/-! ## terraform-plugin-sdk: resource data and diagnostics -/

/-- Resource data `d`: the three attributes of the schema and the identity. -/
structure ResourceData where
  header : String
  content : String
  filename : String
  id : String
deriving DecidableEq

/-- Stored identity, `d.Id()`. -/
def ResourceData.Id (d : ResourceData) : String := d.id

/-- Store an identity, `d.SetId(v)`. -/
def ResourceData.SetId (d : ResourceData) (v : String) : ResourceData :=
  { d with id := v }

/-- Severity of a diagnostic. -/
inductive Severity
  | Error
  | Warning
deriving DecidableEq

/-- One diagnostic of `diag.Diagnostics`. -/
structure Diagnostic where
  severity : Severity
  summary : String
deriving DecidableEq

/-- Go `diag.Diagnostics`; `nil` is the empty list. -/
abbrev Diagnostics := List Diagnostic

/-- One error diagnostic for a non-nil error, `diag.FromErr`. -/
def FromErr : Option GoError → Diagnostics
  | none => []
  | some err => [⟨.Error, err.Error⟩]

/-- What a lifecycle function leaves behind: the filesystem, the resource data
and the diagnostics it returns. -/
structure Outcome where
  fs : FS
  d : ResourceData
  diags : Diagnostics

/-! ## internal/provider/resource_pdf.go -/

/-- The document `resourcePDFCreate` draws (lines 51 to 70): title cell, line
break, body text. -/
def renderPDF (lib : Gofpdf) (d : ResourceData) : Fpdf :=
  let pdf := New OrientationPortrait "mm" PageSizeLetter ""
  let header := d.header
  let content := d.content
  let pdf := pdf.call .AddPage
  let pdf := pdf.call (.SetTitle d.header false)
  let pdf := pdf.call (.SetFont "Arial" "B" 16)
  let wd := lib.GetStringWidth pdf header + 6
  let pdf := pdf.call (.SetX ((210 - wd) / 2))
  let pdf := pdf.call (.CellFormat wd 9 header "" 1 "C" false 0 "")
  let pdf := pdf.call (.Ln 10)
  let pdf := pdf.call (.SetFont "Arial" "" 11)
  let pdf := pdf.call (.SetAutoPageBreak true 2)
  pdf.call (.Write 8 content)

/-- Create: write the document to `filename`, read the file back and store
the hex SHA-1 of its bytes as the identity (lines 48 to 88; the trace log is
left out). -/
def resourcePDFCreate (lib : Gofpdf) (fs : FS) (d : ResourceData) : Outcome :=
  let pdf := renderPDF lib d
  let filename := d.filename
  match OutputFileAndClose lib pdf fs filename with
  | (fs1, some err) => ⟨fs1, d, FromErr (some err)⟩
  | (fs1, none) =>
      match ReadFile fs1 filename with
      | (fs2, .error err) => ⟨fs2, d, FromErr (some err)⟩
      | (fs2, .ok outputContent) =>
          let checksum := Sha1.Sum outputContent
          ⟨fs2, d.SetId (Hex.EncodeToString checksum), []⟩

/-- Read: clear the identity when the file is missing or its checksum is not
the stored identity (lines 90 to 113). -/
def resourcePDFRead (fs : FS) (d : ResourceData) : Outcome :=
  let outputPath := d.filename
  match Stat fs outputPath with
  | (fs1, err) =>
      if IsNotExist err then ⟨fs1, d.SetId "", []⟩
      else
        match ReadFile fs1 outputPath with
        | (fs2, .error err) => ⟨fs2, d, FromErr (some err)⟩
        | (fs2, .ok outputContent) =>
            let outputChecksum := Sha1.Sum outputContent
            if Hex.EncodeToString outputChecksum ≠ d.Id then ⟨fs2, d.SetId "", []⟩
            else ⟨fs2, d, []⟩

/-- Delete: remove the file, whatever `os.Remove` reports (lines 115 to 118). -/
def resourcePDFDelete (fs : FS) (d : ResourceData) : Outcome :=
  match Remove fs d.filename with
  | (fs1, _) => ⟨fs1, d, []⟩

/-- The artifact is present: a readable file is at `filename` and the stored
identity is the hex SHA-1 of its bytes. -/
def isPresent (fs : FS) (d : ResourceData) : Bool :=
  match fs.node d.filename with
  | .file data true _ _ => Hex.EncodeToString (Sha1.Sum data) == d.Id
  | _ => false

/-- Width `resourcePDFCreate` measures for the header: in the title font, on
the document as it stands at line 61. -/
def titleWidth (lib : Gofpdf) (d : ResourceData) : ℚ :=
  lib.GetStringWidth
    ((((New OrientationPortrait "mm" PageSizeLetter "").call .AddPage).call
      (.SetTitle d.header false)).call (.SetFont "Arial" "B" 16))
    d.header

/-- Arguments of the `SetX` calls made on a document, oldest first. -/
def setXArgs (f : Fpdf) : List ℚ :=
  f.calls.filterMap fun c =>
    match c with
    | .SetX x => some x
    | _ => none

/-- Widths of the cells drawn by `CellFormat` on a document, oldest first. -/
def cellWidths (f : Fpdf) : List ℚ :=
  f.calls.filterMap fun c =>
    match c with
    | .CellFormat w _ _ _ _ _ _ _ _ => some w
    | _ => none

/-! ## Sample inputs -/

/-- A stand-in for the library: two units of width per character, no document
error, and a short serialised document that counts the calls made. -/
def sampleLib : Gofpdf :=
  ⟨fun _ s => 2 * s.length, fun _ => none,
   fun f => .ok [0x25, 0x50, 0x44, 0x46, f.calls.length.toUInt8]⟩

/-- A library whose document holds an error after the drawing calls. -/
def failingLib : Gofpdf :=
  ⟨fun _ s => 2 * s.length, fun _ => some (.document "undefined font"),
   fun _ => .ok []⟩

/-- An empty, writable filesystem. -/
def emptyFS : FS :=
  ⟨fun _ => .missing true, none, true⟩

/-- A filesystem in which nothing can be created. -/
def readOnlyFS : FS :=
  ⟨fun _ => .missing false, none, true⟩

/-- The artifact of the end-to-end example of the specification. -/
def sampleData : ResourceData :=
  ⟨"Title", "Body text", "/tmp/x.pdf", ""⟩

/-- The filesystem after the sample artifact was created, with one byte appended
to its file out of band. -/
def mutatedFS : FS :=
  (resourcePDFCreate sampleLib emptyFS sampleData).fs.set "/tmp/x.pdf"
    (.file [0x25, 0x50, 0x44, 0x46, 9, 0x0a] true true true)

/-- A filesystem whose file at `/tmp/x.pdf` holds the bytes `abc` and cannot be
unlinked (its directory is read-only). -/
def lockedFS : FS :=
  ⟨fun p => if p = "/tmp/x.pdf" then .file [97, 98, 99] true true false else .missing true,
   none, true⟩

/-- A present artifact over `lockedFS`: its identity is the SHA-1 of `abc`. -/
def lockedData : ResourceData :=
  ⟨"Title", "Body text", "/tmp/x.pdf", "a9993e364706816aba3e25717850c26c9cd0d89d"⟩

/-- A filesystem whose file at `/tmp/x.pdf` holds the bytes `abc` and can be
unlinked. -/
def abcFS : FS :=
  ⟨fun p => if p = "/tmp/x.pdf" then .file [97, 98, 99] true true true else .missing true,
   none, true⟩

/-- A filesystem whose file at `/tmp/x.pdf` holds the bytes `abc` and may be
written but not read. -/
def writeOnlyFS : FS :=
  ⟨fun p => if p = "/tmp/x.pdf" then .file [97, 98, 99] false true true else .missing true,
   none, true⟩

/-- A filesystem in which a file may grow to two bytes at most. -/
def smallFS : FS :=
  ⟨fun _ => .missing true, some 2, true⟩

/-- An empty, writable filesystem under a umask that leaves new files
unreadable. -/
def maskedFS : FS :=
  ⟨fun _ => .missing true, none, false⟩

/-- A filesystem in which `/tmp/afile` is a regular file, so that nothing exists
at `/tmp/afile/x.pdf`. -/
def notDirFS : FS :=
  ⟨fun p =>
    if p = "/tmp/afile" then .file [97, 98, 99] true true true
    else if p = "/tmp/afile/x.pdf" then .notDir
    else .missing true,
   none, true⟩

/-- An artifact recorded as present whose `filename` lies under the regular file
`/tmp/afile`. -/
def notDirData : ResourceData :=
  ⟨"Title", "Body text", "/tmp/afile/x.pdf", "a9993e364706816aba3e25717850c26c9cd0d89d"⟩

/-! ## Checksums and their hexadecimal form -/

/-- A SHA-1 checksum has 20 bytes. -/
theorem Sha1.Sum_length (data : Bytes) : (Sha1.Sum data).length = 20 := by
  simp [Sha1.Sum, Sha1.wordBytes]

/-- The hex encoding has two characters per byte. -/
theorem Hex.encode_length (b : Bytes) : (Hex.encode b).length = 2 * b.length := by
  induction b with
  | nil => rfl
  | cons v rest ih => simp [Hex.encode, ih]; omega

/-- Every index below 16 selects a character of the digit alphabet. -/
theorem Hex.digit_mem (i : Nat) (h : i < 16) : Hex.digit i ∈ Hex.hextable.toList := by
  interval_cases i <;> decide

/-- Every character of a hex encoding is one of `0123456789abcdef`. -/
theorem Hex.encode_mem (b : Bytes) : ∀ c ∈ Hex.encode b, c ∈ Hex.hextable.toList := by
  induction b with
  | nil => intro c hc; simp [Hex.encode] at hc
  | cons v rest ih =>
    intro c hc
    have hv : v.toNat < 256 := by
      have := UInt8.toNat_lt_size v
      simpa [UInt8.size] using this
    simp only [Hex.encode, List.mem_cons] at hc
    rcases hc with rfl | rfl | hc
    · apply Hex.digit_mem
      rw [Nat.shiftRight_eq_div_pow]
      omega
    · apply Hex.digit_mem
      have := @Nat.and_le_right v.toNat 0x0f
      omega
    · exact ih c hc

/-- The hex form of a checksum has 40 characters. -/
theorem checksum_hex_length (data : Bytes) :
    (Hex.EncodeToString (Sha1.Sum data)).length = 40 := by
  simp [Hex.EncodeToString, String.length, Hex.encode_length, Sha1.Sum_length]

/-- The hex form of a checksum is not the empty string. -/
theorem checksum_hex_ne_empty (data : Bytes) : Hex.EncodeToString (Sha1.Sum data) ≠ "" := by
  intro h
  have := checksum_hex_length data
  rw [h] at this
  simp at this

/-- Test vector of FIPS 180: the checksum of `abc`. -/
theorem checksum_abc :
    Hex.EncodeToString (Sha1.Sum [97, 98, 99]) = "a9993e364706816aba3e25717850c26c9cd0d89d" := by
  set_option maxRecDepth 1000000 in decide

/-! ## The lifecycle functions, case by case -/

/-- Read on a missing file clears the identity and reports nothing. -/
theorem resourcePDFRead_missing (fs : FS) (d : ResourceData) (c : Bool)
    (h : fs.node d.filename = .missing c) :
    resourcePDFRead fs d = ⟨fs, d.SetId "", []⟩ := by
  simp [resourcePDFRead, Stat, h, IsNotExist]

/-- Read on a readable file compares the checksum with the stored identity. -/
theorem resourcePDFRead_file (fs : FS) (d : ResourceData) (data : Bytes) (w rm : Bool)
    (h : fs.node d.filename = .file data true w rm) :
    resourcePDFRead fs d =
      if Hex.EncodeToString (Sha1.Sum data) ≠ d.Id then ⟨fs, d.SetId "", []⟩ else ⟨fs, d, []⟩ := by
  simp [resourcePDFRead, Stat, h, IsNotExist, ReadFile]

/-- Read on a path under a regular file returns the error of `ioutil.ReadFile`
and leaves the resource data as it was. -/
theorem resourcePDFRead_notDir (fs : FS) (d : ResourceData)
    (h : fs.node d.filename = .notDir) :
    resourcePDFRead fs d
      = ⟨fs, d, FromErr (some (.pathError "open" d.filename .ENOTDIR))⟩ := by
  simp [resourcePDFRead, Stat, h, IsNotExist, ReadFile]

/-- Read returns nothing and clears the identity exactly on the paths where
`os.Stat` reports ENOENT; of the paths without a file, those under a regular
file are not among them. -/
theorem resourcePDFRead_noFile (fs : FS) (d : ResourceData)
    (h : (fs.node d.filename).noFile = true) :
    ((∃ c, fs.node d.filename = .missing c) ∧
      (resourcePDFRead fs d).diags = [] ∧ (resourcePDFRead fs d).d.Id = "") ∨
    (fs.node d.filename = .notDir ∧
      (resourcePDFRead fs d).diags ≠ [] ∧ (resourcePDFRead fs d).d = d) := by
  cases hn : fs.node d.filename with
  | missing c =>
    left
    rw [resourcePDFRead_missing fs d c hn]
    exact ⟨⟨c, rfl⟩, rfl, rfl⟩
  | notDir =>
    right
    rw [resourcePDFRead_notDir fs d hn]
    exact ⟨rfl, by simp [FromErr], rfl⟩
  | unreachable => simp [hn, Node.noFile] at h
  | file data r w rm => simp [hn, Node.noFile] at h

/-- A Create without diagnostics wrote the file, read it back and stored the hex
checksum of what it read. -/
theorem resourcePDFCreate_ok (lib : Gofpdf) (fs : FS) (d : ResourceData)
    (h : (resourcePDFCreate lib fs d).diags = []) :
    ∃ fs1 data w rm,
      OutputFileAndClose lib (renderPDF lib d) fs d.filename = (fs1, none) ∧
      fs1.node d.filename = .file data true w rm ∧
      resourcePDFCreate lib fs d = ⟨fs1, d.SetId (Hex.EncodeToString (Sha1.Sum data)), []⟩ := by
  unfold resourcePDFCreate at h ⊢
  rcases hout : OutputFileAndClose lib (renderPDF lib d) fs d.filename with ⟨fs1, _ | err⟩
  · simp only [hout] at h ⊢
    unfold ReadFile at h ⊢
    cases hn : fs1.node d.filename with
    | missing c => simp [hn, FromErr] at h
    | unreachable => simp [hn, FromErr] at h
    | notDir => simp [hn, FromErr] at h
    | file data r w rm =>
      cases r with
      | false => simp [hn, FromErr] at h
      | true => exact ⟨fs1, data, w, rm, rfl, hn, by simp [hn]⟩
  · simp [hout, FromErr] at h

/-- Setting the node at one path leaves every other path as it was. -/
theorem FS.set_node_ne (fs : FS) (p q : Path) (n : Node) (h : q ≠ p) :
    (fs.set p n).node q = fs.node q := by
  simp [FS.set, h]

/-- Removal changes no path but its own. -/
theorem Remove_frame (fs : FS) (name q : Path) (h : q ≠ name) :
    (Remove fs name).1.node q = fs.node q := by
  unfold Remove
  split <;> simp [FS.set, h]

/-- Creation changes no path but its own. -/
theorem Create_frame (fs : FS) (name q : Path) (h : q ≠ name) :
    (Create fs name).1.node q = fs.node q := by
  unfold Create
  split <;> simp [FS.set, h]

/-- A write changes no path but its own. -/
theorem Write_frame (fs : FS) (name q : Path) (buf : Bytes) (h : q ≠ name) :
    (Write fs name buf).1.node q = fs.node q := by
  unfold Write
  split
  · split
    · simp [FS.set, h]
    · split <;> simp [FS.set, h]
  · rfl

/-- Writing the document out changes no path but `fileStr`. -/
theorem OutputFileAndClose_frame (lib : Gofpdf) (f : Fpdf) (fs : FS) (fileStr q : Path)
    (h : q ≠ fileStr) :
    (OutputFileAndClose lib f fs fileStr).1.node q = fs.node q := by
  unfold OutputFileAndClose
  cases lib.err f with
  | some e => rfl
  | none =>
    have hc := Create_frame fs fileStr q h
    rcases hcr : Create fs fileStr with ⟨fs1, _ | e⟩
    · rw [hcr] at hc
      cases lib.close f with
      | error e => simpa using hc
      | ok buf =>
        have hw := Write_frame fs1 fileStr q buf h
        simp only at hc ⊢
        rw [hw, hc]
    · rw [hcr] at hc
      simpa using hc

/-- Read hands back the filesystem it was given. -/
theorem resourcePDFRead_fs (fs : FS) (d : ResourceData) : (resourcePDFRead fs d).fs = fs := by
  cases h : fs.node d.filename with
  | missing c => rw [resourcePDFRead_missing fs d c h]
  | unreachable => simp [resourcePDFRead, Stat, ReadFile, h, IsNotExist]
  | notDir => simp [resourcePDFRead, Stat, ReadFile, h, IsNotExist]
  | file data r w rm =>
    cases r with
    | false => simp [resourcePDFRead, Stat, ReadFile, h, IsNotExist]
    | true =>
      rw [resourcePDFRead_file fs d data w rm h]
      split <;> rfl

/-- The filesystem after Create is the one `OutputFileAndClose` left. -/
theorem resourcePDFCreate_fs (lib : Gofpdf) (fs : FS) (d : ResourceData) :
    (resourcePDFCreate lib fs d).fs =
      (OutputFileAndClose lib (renderPDF lib d) fs d.filename).1 := by
  unfold resourcePDFCreate
  rcases hout : OutputFileAndClose lib (renderPDF lib d) fs d.filename with ⟨fs1, _ | err⟩
  · simp only [hout]
    unfold ReadFile
    cases hn : fs1.node d.filename with
    | missing c => simp
    | unreachable => simp
    | notDir => simp
    | file data r w rm => cases r <;> simp
  · simp only [hout]

/-! ## Create then Read -/

/-- C1: for every header, content and filename with a non-empty header, and
every filesystem in which `resourcePDFCreate` succeeds, `resourcePDFRead` run
right afterwards on the filesystem Create left returns no diagnostics and
leaves the stored identity equal to the one Create set, which is not empty. -/
theorem create_then_read_keeps_identity (lib : Gofpdf) (fs : FS) (d : ResourceData)
    (_hheader : d.header ≠ "")
    (hok : (resourcePDFCreate lib fs d).diags = []) :
    (resourcePDFRead (resourcePDFCreate lib fs d).fs (resourcePDFCreate lib fs d).d).diags = [] ∧
    (resourcePDFRead (resourcePDFCreate lib fs d).fs (resourcePDFCreate lib fs d).d).d.Id
      = (resourcePDFCreate lib fs d).d.Id ∧
    (resourcePDFCreate lib fs d).d.Id ≠ "" := by
  obtain ⟨fs1, data, w, rm, _, hn, hc⟩ := resourcePDFCreate_ok lib fs d hok
  rw [hc]
  have hr := resourcePDFRead_file fs1 (d.SetId (Hex.EncodeToString (Sha1.Sum data))) data w rm hn
  simp only [hr]
  simp [ResourceData.Id, ResourceData.SetId, checksum_hex_ne_empty]

/-- C1 at the sample artifact on an empty filesystem. -/
theorem create_then_read_keeps_identity_witness :
    (resourcePDFRead (resourcePDFCreate sampleLib emptyFS sampleData).fs
      (resourcePDFCreate sampleLib emptyFS sampleData).d).diags = [] ∧
    (resourcePDFRead (resourcePDFCreate sampleLib emptyFS sampleData).fs
      (resourcePDFCreate sampleLib emptyFS sampleData).d).d.Id
      = (resourcePDFCreate sampleLib emptyFS sampleData).d.Id ∧
    (resourcePDFCreate sampleLib emptyFS sampleData).d.Id ≠ "" :=
  create_then_read_keeps_identity sampleLib emptyFS sampleData (by decide) (by decide)

/-- C2: whenever `resourcePDFCreate` succeeds, a readable file is at `filename`
afterwards and the stored identity is the lowercase hex encoding of the SHA-1
checksum of all its bytes; the identity has exactly 40 characters, each one of
`0123456789abcdef`. -/
theorem create_identity_is_hex_sha1 (lib : Gofpdf) (fs : FS) (d : ResourceData)
    (hok : (resourcePDFCreate lib fs d).diags = []) :
    ∃ data w rm,
      (resourcePDFCreate lib fs d).fs.node d.filename = .file data true w rm ∧
      (ReadFile (resourcePDFCreate lib fs d).fs d.filename).2 = .ok data ∧
      (resourcePDFCreate lib fs d).d.Id = Hex.EncodeToString (Sha1.Sum data) ∧
      (resourcePDFCreate lib fs d).d.Id.length = 40 ∧
      ∀ c ∈ (resourcePDFCreate lib fs d).d.Id.toList, c ∈ "0123456789abcdef".toList := by
  obtain ⟨fs1, data, w, rm, _, hn, hc⟩ := resourcePDFCreate_ok lib fs d hok
  refine ⟨data, w, rm, ?_, ?_, ?_, ?_, ?_⟩
  · rw [hc]; exact hn
  · rw [hc]; simp [ReadFile, hn]
  · rw [hc]; rfl
  · rw [hc]; exact checksum_hex_length data
  · rw [hc]
    intro c hc2
    exact Hex.encode_mem (Sha1.Sum data) c hc2

/-- C2 at the sample artifact on an empty filesystem. -/
theorem create_identity_is_hex_sha1_witness :
    ∃ data w rm,
      (resourcePDFCreate sampleLib emptyFS sampleData).fs.node sampleData.filename
        = .file data true w rm ∧
      (ReadFile (resourcePDFCreate sampleLib emptyFS sampleData).fs sampleData.filename).2
        = .ok data ∧
      (resourcePDFCreate sampleLib emptyFS sampleData).d.Id = Hex.EncodeToString (Sha1.Sum data) ∧
      (resourcePDFCreate sampleLib emptyFS sampleData).d.Id.length = 40 ∧
      ∀ c ∈ (resourcePDFCreate sampleLib emptyFS sampleData).d.Id.toList,
        c ∈ "0123456789abcdef".toList :=
  create_identity_is_hex_sha1 sampleLib emptyFS sampleData (by decide)

/-! ## Read -/

/-- C3, what the code does where the claim breaks: `/tmp/afile` is a regular
file, so no file exists at the `filename` `/tmp/afile/x.pdf`; `os.Stat` reports
ENOTDIR, which `os.IsNotExist` does not accept, and `resourcePDFRead` returns
the error of `ioutil.ReadFile` as a diagnostic and keeps the stored identity,
where the claim, and the comment on line 91, have it return nothing and clear
the identity. -/
theorem read_under_regular_file_keeps_identity :
    (notDirFS.node notDirData.filename).noFile = true ∧
    (Stat notDirFS notDirData.filename).2
      = some (.pathError "stat" "/tmp/afile/x.pdf" .ENOTDIR) ∧
    IsNotExist (Stat notDirFS notDirData.filename).2 = false ∧
    (resourcePDFRead notDirFS notDirData).diags
      = [⟨.Error, "open /tmp/afile/x.pdf: not a directory"⟩] ∧
    (resourcePDFRead notDirFS notDirData).d.Id = "a9993e364706816aba3e25717850c26c9cd0d89d" ∧
    (resourcePDFRead notDirFS notDirData).d.Id ≠ "" := by
  decide

/-- C4: when a readable file is at `filename` and the hex SHA-1 of its bytes is
not the stored identity, `resourcePDFRead` returns no diagnostics and sets the
stored identity to the empty string. -/
theorem read_mismatch_clears_identity (fs : FS) (d : ResourceData) (data : Bytes)
    (w rm : Bool)
    (hfile : fs.node d.filename = .file data true w rm)
    (hdiff : Hex.EncodeToString (Sha1.Sum data) ≠ d.Id) :
    (resourcePDFRead fs d).diags = [] ∧ (resourcePDFRead fs d).d.Id = "" := by
  rw [resourcePDFRead_file fs d data w rm hfile, if_pos hdiff]
  exact ⟨rfl, rfl⟩

set_option maxRecDepth 1000000 in
/-- C4 after a Create of the sample artifact and one byte appended to its file. -/
theorem read_mismatch_clears_identity_witness :
    (resourcePDFCreate sampleLib emptyFS sampleData).fs.node "/tmp/x.pdf"
      = .file [0x25, 0x50, 0x44, 0x46, 9] true true true ∧
    (resourcePDFRead mutatedFS (resourcePDFCreate sampleLib emptyFS sampleData).d).diags = [] ∧
    (resourcePDFRead mutatedFS (resourcePDFCreate sampleLib emptyFS sampleData).d).d.Id = "" :=
  ⟨by decide,
   read_mismatch_clears_identity mutatedFS (resourcePDFCreate sampleLib emptyFS sampleData).d
    [0x25, 0x50, 0x44, 0x46, 9, 0x0a] true true (by decide) (by decide)⟩

/-- C5: when a readable file is at `filename` and the hex SHA-1 of its bytes is
the stored identity, `resourcePDFRead` returns no diagnostics and leaves the
resource data, its identity included, and the filesystem as they were. -/
theorem read_match_changes_nothing (fs : FS) (d : ResourceData) (data : Bytes)
    (w rm : Bool)
    (hfile : fs.node d.filename = .file data true w rm)
    (hsame : Hex.EncodeToString (Sha1.Sum data) = d.Id) :
    (resourcePDFRead fs d).diags = [] ∧
    (resourcePDFRead fs d).d.Id = d.Id ∧
    (resourcePDFRead fs d).d = d ∧
    (resourcePDFRead fs d).fs = fs ∧
    (resourcePDFRead fs d).fs.node d.filename = .file data true w rm := by
  rw [resourcePDFRead_file fs d data w rm hfile, if_neg (not_not.mpr hsame)]
  exact ⟨rfl, rfl, rfl, rfl, hfile⟩

set_option maxRecDepth 1000000 in
/-- C5 at a file holding `abc` and the SHA-1 of `abc` as stored identity. -/
theorem read_match_changes_nothing_witness :
    (resourcePDFRead abcFS lockedData).diags = [] ∧
    (resourcePDFRead abcFS lockedData).d.Id = "a9993e364706816aba3e25717850c26c9cd0d89d" ∧
    (resourcePDFRead abcFS lockedData).d = lockedData ∧
    (resourcePDFRead abcFS lockedData).fs = abcFS ∧
    (resourcePDFRead abcFS lockedData).fs.node "/tmp/x.pdf" = .file [97, 98, 99] true true true :=
  read_match_changes_nothing abcFS lockedData [97, 98, 99] true true (by decide) (by decide)

/-! ## Delete -/

/-- Delete leaves the filesystem `os.Remove` left, and reports nothing. -/
theorem resourcePDFDelete_eq (fs : FS) (d : ResourceData) :
    resourcePDFDelete fs d = ⟨(Remove fs d.filename).1, d, []⟩ := by
  unfold resourcePDFDelete
  rcases h : Remove fs d.filename with ⟨fs1, e⟩
  rfl

/-- When `os.Remove` fails, Delete still returns no diagnostics and leaves the
filesystem and the resource data as they were. -/
theorem resourcePDFDelete_failed_removal (fs : FS) (d : ResourceData)
    (h : (Remove fs d.filename).2 ≠ none) :
    resourcePDFDelete fs d = ⟨fs, d, []⟩ := by
  rw [resourcePDFDelete_eq]
  have hfs : (Remove fs d.filename).1 = fs := by
    unfold Remove at h ⊢
    cases hn : fs.node d.filename with
    | missing c => simp
    | unreachable => simp
    | notDir => simp
    | file data r w rm =>
      cases rm with
      | false => simp
      | true => simp [hn] at h
  rw [hfs]

/-- C6: `resourcePDFDelete` returns no diagnostics for every filename and every
filesystem, whether the file is there, is missing or cannot be removed; a
second Delete right after the first returns none either. -/
theorem delete_never_errors (fs : FS) (d : ResourceData) :
    (resourcePDFDelete fs d).diags = [] ∧
    (resourcePDFDelete (resourcePDFDelete fs d).fs (resourcePDFDelete fs d).d).diags = [] := by
  constructor <;> simp [resourcePDFDelete_eq]

/-- C6 where nothing is at the path, and where the file cannot be removed. -/
theorem delete_never_errors_witness :
    ((resourcePDFDelete emptyFS sampleData).diags = [] ∧
      (resourcePDFDelete (resourcePDFDelete emptyFS sampleData).fs
        (resourcePDFDelete emptyFS sampleData).d).diags = []) ∧
    ((Remove lockedFS lockedData.filename).2 ≠ none ∧
      (resourcePDFDelete lockedFS lockedData).diags = []) :=
  ⟨delete_never_errors emptyFS sampleData,
   by decide, (delete_never_errors lockedFS lockedData).1⟩

set_option maxRecDepth 1000000 in
/-- C7 fails as stated: the artifact over `lockedFS` is present, its file cannot
be unlinked, Delete returns no diagnostics and leaves the file where it was, and
the Read that follows keeps the identity. -/
theorem delete_leaves_locked_file :
    isPresent lockedFS lockedData = true ∧
    (resourcePDFDelete lockedFS lockedData).diags = [] ∧
    (resourcePDFDelete lockedFS lockedData).fs.node "/tmp/x.pdf"
      = .file [97, 98, 99] true true false ∧
    (resourcePDFRead (resourcePDFDelete lockedFS lockedData).fs
      (resourcePDFDelete lockedFS lockedData).d).d.Id
      = "a9993e364706816aba3e25717850c26c9cd0d89d" ∧
    (resourcePDFRead (resourcePDFDelete lockedFS lockedData).fs
      (resourcePDFDelete lockedFS lockedData).d).d.Id ≠ "" := by
  decide

/-- C7, amended: for every artifact in the present state whose file `os.Remove`
removes without error, after `resourcePDFDelete` no file is at `filename`, and
the `resourcePDFRead` that follows returns no diagnostics and leaves the
stored identity empty. -/
theorem delete_removable_then_read_absent (fs : FS) (d : ResourceData)
    (_hpresent : isPresent fs d = true)
    (hremoved : (Remove fs d.filename).2 = none) :
    (resourcePDFDelete fs d).fs.node d.filename = .missing true ∧
    (resourcePDFRead (resourcePDFDelete fs d).fs (resourcePDFDelete fs d).d).diags = [] ∧
    (resourcePDFRead (resourcePDFDelete fs d).fs (resourcePDFDelete fs d).d).d.Id = "" := by
  have hnode : (Remove fs d.filename).1.node d.filename = .missing true := by
    unfold Remove at hremoved ⊢
    cases hn : fs.node d.filename with
    | missing c => simp [hn] at hremoved
    | unreachable => simp [hn] at hremoved
    | notDir => simp [hn] at hremoved
    | file data r w rm =>
      cases rm with
      | false => simp [hn] at hremoved
      | true => simp [FS.set]
  rw [resourcePDFDelete_eq]
  refine ⟨hnode, ?_⟩
  rw [resourcePDFRead_missing (Remove fs d.filename).1 d true hnode]
  exact ⟨rfl, rfl⟩

set_option maxRecDepth 1000000 in
/-- C7, amended, at a removable file holding `abc`. -/
theorem delete_removable_then_read_absent_witness :
    (resourcePDFDelete abcFS lockedData).fs.node "/tmp/x.pdf" = .missing true ∧
    (resourcePDFRead (resourcePDFDelete abcFS lockedData).fs
      (resourcePDFDelete abcFS lockedData).d).diags = [] ∧
    (resourcePDFRead (resourcePDFDelete abcFS lockedData).fs
      (resourcePDFDelete abcFS lockedData).d).d.Id = "" :=
  delete_removable_then_read_absent abcFS lockedData (by decide) (by decide)

/-! ## Create: errors -/

/-- C8: `resourcePDFCreate` returns diagnostics exactly when writing the document
to `filename` fails or reading the file back fails; it then returns one
diagnostic of severity error and leaves the resource data, the stored identity
included, as it was. -/
theorem create_fails_iff_write_or_readback_fails (lib : Gofpdf) (fs : FS)
    (d : ResourceData) :
    ((resourcePDFCreate lib fs d).diags ≠ [] ↔
      ((OutputFileAndClose lib (renderPDF lib d) fs d.filename).2 ≠ none ∨
        ∃ e, (ReadFile (OutputFileAndClose lib (renderPDF lib d) fs d.filename).1
          d.filename).2 = .error e)) ∧
    ((resourcePDFCreate lib fs d).diags ≠ [] →
      (resourcePDFCreate lib fs d).d = d ∧
      (resourcePDFCreate lib fs d).d.Id = d.Id ∧
      ∃ summary, (resourcePDFCreate lib fs d).diags = [⟨.Error, summary⟩]) := by
  unfold resourcePDFCreate
  rcases hout : OutputFileAndClose lib (renderPDF lib d) fs d.filename with ⟨fs1, _ | err⟩
  · simp only [hout]
    unfold ReadFile
    cases hn : fs1.node d.filename with
    | missing c => simp [FromErr]
    | unreachable => simp [FromErr]
    | notDir => simp [FromErr]
    | file data r w rm => cases r <;> simp [FromErr]
  · simp [hout, FromErr]

/-- C8 at five failures: the document holds an error, the file cannot be
created, the write stops at the size limit and leaves two bytes, an existing
file that may not be read cannot be opened and stays as it was, and a file
written under a umask that takes the read permission cannot be read back.
Each time the identity stays empty. -/
theorem create_fails_iff_write_or_readback_fails_witness :
    (resourcePDFCreate failingLib emptyFS sampleData).d.Id = "" ∧
    (resourcePDFCreate sampleLib readOnlyFS sampleData).d.Id = "" ∧
    (resourcePDFCreate sampleLib smallFS sampleData).d.Id = "" ∧
    (resourcePDFCreate sampleLib writeOnlyFS sampleData).d.Id = "" ∧
    (resourcePDFCreate sampleLib maskedFS sampleData).d.Id = "" ∧
    (resourcePDFCreate sampleLib smallFS sampleData).fs.node "/tmp/x.pdf"
      = .file [0x25, 0x50] true true true ∧
    (resourcePDFCreate sampleLib writeOnlyFS sampleData).fs.node "/tmp/x.pdf"
      = .file [97, 98, 99] false true true ∧
    (OutputFileAndClose sampleLib (renderPDF sampleLib sampleData) maskedFS "/tmp/x.pdf").2
      = none ∧
    (resourcePDFCreate sampleLib maskedFS sampleData).diags
      = [⟨.Error, "open /tmp/x.pdf: permission denied"⟩] :=
  ⟨((create_fails_iff_write_or_readback_fails failingLib emptyFS sampleData).2
      (by decide)).2.1,
   ((create_fails_iff_write_or_readback_fails sampleLib readOnlyFS sampleData).2
      (by decide)).2.1,
   ((create_fails_iff_write_or_readback_fails sampleLib smallFS sampleData).2
      (by decide)).2.1,
   ((create_fails_iff_write_or_readback_fails sampleLib writeOnlyFS sampleData).2
      (by decide)).2.1,
   ((create_fails_iff_write_or_readback_fails sampleLib maskedFS sampleData).2
      (by decide)).2.1,
   by decide, by decide, by decide, by decide⟩

/-! ## Frame -/

/-- C9: Create, Read and Delete leave every path other than `filename` as it
was; Read hands back the very filesystem it was given; and every file found
after Delete was there before with the same bytes and permissions. -/
theorem lifecycle_touches_only_filename (lib : Gofpdf) (fs : FS) (d : ResourceData) :
    (∀ p : Path, p ≠ d.filename →
      (resourcePDFCreate lib fs d).fs.node p = fs.node p ∧
      (resourcePDFRead fs d).fs.node p = fs.node p ∧
      (resourcePDFDelete fs d).fs.node p = fs.node p) ∧
    (resourcePDFRead fs d).fs = fs ∧
    (∀ (q : Path) (data : Bytes) (r w rm : Bool),
      (resourcePDFDelete fs d).fs.node q = .file data r w rm →
        fs.node q = .file data r w rm) := by
  refine ⟨?_, resourcePDFRead_fs fs d, ?_⟩
  · intro p hp
    refine ⟨?_, ?_, ?_⟩
    · rw [resourcePDFCreate_fs]
      exact OutputFileAndClose_frame lib (renderPDF lib d) fs d.filename p hp
    · rw [resourcePDFRead_fs]
    · rw [resourcePDFDelete_eq]
      exact Remove_frame fs d.filename p hp
  · intro q data r w rm h
    rw [resourcePDFDelete_eq] at h
    by_cases hq : q = d.filename
    · subst hq
      simp only at h
      unfold Remove at h
      cases hn : fs.node d.filename with
      | missing c => simp [hn] at h
      | unreachable => simp [hn] at h
      | notDir => simp [hn] at h
      | file data1 r1 w1 rm1 =>
        cases rm1 with
        | false => simpa [hn] using h
        | true => simp [hn, FS.set] at h
    · rw [← Remove_frame fs d.filename q hq]
      exact h

set_option maxRecDepth 1000000 in
/-- C9 at a second file next to the artifact over `abcFS`: Create rewrites
`/tmp/x.pdf`, Delete removes it, and `/tmp/y.pdf` stays missing throughout. -/
theorem lifecycle_touches_only_filename_witness :
    ((resourcePDFCreate sampleLib abcFS lockedData).fs.node "/tmp/y.pdf" = abcFS.node "/tmp/y.pdf" ∧
      (resourcePDFRead abcFS lockedData).fs.node "/tmp/y.pdf" = abcFS.node "/tmp/y.pdf" ∧
      (resourcePDFDelete abcFS lockedData).fs.node "/tmp/y.pdf" = abcFS.node "/tmp/y.pdf") ∧
    (resourcePDFCreate sampleLib abcFS lockedData).fs.node "/tmp/x.pdf"
      = .file [0x25, 0x50, 0x44, 0x46, 9] true true true ∧
    (resourcePDFDelete abcFS lockedData).fs.node "/tmp/x.pdf" = .missing true :=
  ⟨(lifecycle_touches_only_filename sampleLib abcFS lockedData).1 "/tmp/y.pdf" (by decide),
   by decide, by decide⟩

/-! ## Title position -/

/-- C10, what the code does: the title cell has width `w + 6` for the measured
width `w` of the header and is placed at `X = (210 - (w + 6)) / 2`, on a page
215.9 mm wide; the space to its right is 5.9 mm more than the space to its
left, so `X` is not `(pageWidth - (w + 6)) / 2`. -/
theorem title_cell_centred_on_210_not_page (lib : Gofpdf) (d : ResourceData) :
    cellWidths (renderPDF lib d) = [titleWidth lib d + 6] ∧
    setXArgs (renderPDF lib d) = [(210 - (titleWidth lib d + 6)) / 2] ∧
    (renderPDF lib d).w = 2159 / 10 ∧
    ((renderPDF lib d).w - ((210 - (titleWidth lib d + 6)) / 2 + (titleWidth lib d + 6)))
      - (210 - (titleWidth lib d + 6)) / 2 = 59 / 10 ∧
    (210 - (titleWidth lib d + 6)) / 2
      ≠ ((renderPDF lib d).w - (titleWidth lib d + 6)) / 2 := by
  have hw : (renderPDF lib d).w = 2159 / 10 := by
    have hl : toLower PageSizeLetter = "letter" := by decide
    simp only [renderPDF, Fpdf.call, New, Fpdf.w, stdPageWidthPt, unitScale, hl]
    norm_num
  refine ⟨?_, ?_, hw, ?_, ?_⟩
  · simp [cellWidths, renderPDF, Fpdf.call, New, titleWidth]
  · simp [setXArgs, renderPDF, Fpdf.call, New, titleWidth]
  · rw [hw]; ring
  · rw [hw]
    intro h
    linarith

end Mailform
